import Mathlib

set_option maxRecDepth 40000

/-
Shallow embedding of the "prompter" backend (src/backend.js): the
markdown-like text-to-HTML/document conversion (convertMarkdownToHTML,
escapeHtml, addStyledContent) and the request dispatcher
(doGet, runAgent, generateAndSendOutput, handlePDFOutput,
handleHTMLOutput, handleEmailOutput).

JavaScript strings are modelled as Lean `String`; the handful of
JavaScript string primitives the source uses (trim, split, endsWith,
startsWith, substring, toUpperCase, toLowerCase, global single-character
replace, the /^\d+\./ regex test and the /^\d+\.\s*/ strip) are defined
below over the character list `String.data`, so every definition is
executable and provable by structural induction.  External effectful
services (spreadsheet, completion endpoint, mail, Drive) are modelled by
an explicit environment plus an event trace.
-/

namespace Prompter

/-- JavaScript whitespace as used by `trim()` and `\s` (the ASCII core:
space, tab, newline, carriage return, vertical tab, form feed). -/
def isJsSpace (c : Char) : Bool :=
  c = ' ' || c = '\t' || c = '\n' || c = '\r' || c = '\x0b' || c = '\x0c'

/-- `trim()` on a character list: drop leading and trailing whitespace. -/
def trimList (l : List Char) : List Char :=
  ((l.dropWhile isJsSpace).reverse.dropWhile isJsSpace).reverse

/-- JavaScript `s.trim()`. -/
def jsTrim (s : String) : String := String.mk (trimList s.data)

/-- JavaScript `s.split('\n')` on a character list. -/
def splitLinesList : List Char → List (List Char)
  | [] => [[]]
  | c :: rest =>
    if c = '\n' then [] :: splitLinesList rest
    else
      match splitLinesList rest with
      | [] => [[c]]
      | l :: ls => (c :: l) :: ls

/-- JavaScript `s.split('\n')`. -/
def jsSplitLines (s : String) : List String :=
  (splitLinesList s.data).map String.mk

/-- JavaScript `s.endsWith(c)` for a single character `c`. -/
def jsEndsWith (s : String) (c : Char) : Bool := s.data.getLast? = some c

/-- JavaScript `s.startsWith(c)` for a single character `c`. -/
def jsStartsWith (s : String) (c : Char) : Bool := s.data.head? = some c

/-- JavaScript `s.substring(1)`. -/
def jsDropFirst (s : String) : String := String.mk (s.data.drop 1)

/-- JavaScript `s.toUpperCase()` (ASCII; the source only compares against
ASCII format names). -/
def jsToUpper (s : String) : String := String.mk (s.data.map Char.toUpper)

/-- JavaScript `s.toLowerCase()` (ASCII; agent codes in the sheet are
ASCII). -/
def jsToLower (s : String) : String := String.mk (s.data.map Char.toLower)

/-- The regex test `/^\d+\./.test(line)`: one or more digits followed by a
literal period, anchored at the start. -/
def testOrderedMarker (s : String) : Bool :=
  s.data.takeWhile Char.isDigit ≠ [] &&
    (s.data.dropWhile Char.isDigit).head? = some '.'

/-- JavaScript `line.replace(/^\d+\.\s*/, '')`: remove the leading digits,
the period and any following whitespace; leave the string unchanged when
the pattern does not match. -/
def stripOrderedMarker (s : String) : String :=
  if testOrderedMarker s then
    String.mk (((s.data.dropWhile Char.isDigit).drop 1).dropWhile isJsSpace)
  else s

/-- Global single-character replacement on a character list, the semantics
of JavaScript `replace(/c/g, sub)` / `replaceAll(c, sub)` for a
one-character pattern. -/
def replaceChar (c : Char) (sub : List Char) : List Char → List Char
  | [] => []
  | x :: rest => (if x = c then sub else [x]) ++ replaceChar c sub rest

/-- The five sequential global replacements of `escapeHtml`
(src/backend.js lines 306-313), innermost first: `&`, `<`, `>`, `"`, `'`. -/
def escList (l : List Char) : List Char :=
  replaceChar '\x27' ("&#039;").data
    (replaceChar '"' ("&quot;").data
      (replaceChar '>' ("&gt;").data
        (replaceChar '<' ("&lt;").data
          (replaceChar '&' ("&amp;").data l))))

/-- `escapeHtml` (src/backend.js lines 306-313). -/
def escapeHtml (s : String) : String := String.mk (escList s.data)

/-- `replaceAll("\n", "")` as used on the HTML response payload
(src/backend.js line 199). -/
def removeNewlines (s : String) : String :=
  String.mk (replaceChar '\n' [] s.data)

/-- The classification of one trimmed line, reifying the identical
if/else chains of `convertMarkdownToHTML` (src/backend.js lines 242-285)
and `addStyledContent` (lines 322-344): blank, then heading (ends with
`:`), then ordered item (`/^\d+\./`), then unordered item (starts with
`-`), else paragraph.  The item payload is the content after the marker,
as each branch of `convertMarkdownToHTML` computes it. -/
inductive LineKind where
  | blank
  | heading (text : String)
  | listItem (ordered : Bool) (text : String)
  | paragraph (text : String)
  deriving DecidableEq

/-- Line classification: the shared branch structure of the two renderers
in src/backend.js, operating on an already-trimmed line. -/
def classify (line : String) : LineKind :=
  if line = "" then .blank
  else if jsEndsWith line ':' then .heading line
  else if testOrderedMarker line then .listItem true (stripOrderedMarker line)
  else if jsStartsWith line '-' then .listItem false (jsTrim (jsDropFirst line))
  else .paragraph line

/-- The mutable state of `convertMarkdownToHTML`'s line loop
(src/backend.js lines 232-238): the accumulated `html` string, the
`inList` flag and the `listType` tag name (`"ol"` or `"ul"`). -/
structure MdState where
  html : String
  inList : Bool
  listType : String
  deriving DecidableEq

/-- The inline list-closing code `html += listType === 'ol' ? '</ol>' :
'</ul>'; inList = false;` guarded by `if (inList)`. -/
def mdClose (st : MdState) : MdState :=
  if st.inList then
    { html := st.html ++ (if st.listType = "ol" then "</ol>" else "</ul>"),
      inList := false, listType := st.listType }
  else st

/-- One iteration of the `lines.forEach` body of `convertMarkdownToHTML`
(src/backend.js lines 240-286), dispatching on `classify` of the trimmed
line. -/
def mdStep (st : MdState) (rawLine : String) : MdState :=
  let line := jsTrim rawLine
  match classify line with
  | .blank => mdClose st
  | .heading t =>
    let s1 := mdClose st
    { s1 with html := s1.html ++ "<h2>" ++ escapeHtml t ++ "</h2>\n" }
  | .listItem true t =>
    let s1 :=
      if st.inList = false || st.listType ≠ "ol" then
        let s0 := mdClose st
        { s0 with html := s0.html ++ "<ol>\n", inList := true, listType := "ol" }
      else st
    { s1 with html := s1.html ++ "<li>" ++ escapeHtml t ++ "</li>\n" }
  | .listItem false t =>
    let s1 :=
      if st.inList = false || st.listType ≠ "ul" then
        let s0 := mdClose st
        { s0 with html := s0.html ++ "<ul>\n", inList := true, listType := "ul" }
      else st
    { s1 with html := s1.html ++ "<li>" ++ escapeHtml t ++ "</li>\n" }
  | .paragraph t =>
    let s1 := mdClose st
    { s1 with html := s1.html ++ "<p>" ++ escapeHtml t ++ "</p>\n" }

/-- The opening template literal of `convertMarkdownToHTML`
(src/backend.js lines 232-235), with `agentName` and `extraContext`
interpolated verbatim. -/
def htmlHeader (agentName extraContext : String) : String :=
  "\n<div class=\"agent-response\">\n    <h1>" ++ agentName ++ " - " ++
    extraContext ++ "</h1>\n"

/-- The closing template literal of `convertMarkdownToHTML`
(src/backend.js lines 292-298).  `new Date().toLocaleString()` is
nondeterministic and is passed in as the `now` parameter. -/
def htmlFooter (now : String) : String :=
  "\n    <div class=\"footer\">\n        <p>Generated by Strategic Advisor System</p>\n        <p>" ++
    now ++ "</p>\n    </div>\n</div>\n"

/-- `convertMarkdownToHTML` (src/backend.js lines 230-301), the HTML /
Email adapter: split on newlines, fold the line loop, close a list left
open after the last line, append the footer. -/
def convertMarkdownToHTML (text agentName extraContext now : String) : String :=
  let lines := jsSplitLines text
  let init : MdState :=
    { html := htmlHeader agentName extraContext, inList := false, listType := "" }
  let fin := mdClose (lines.foldl mdStep init)
  fin.html ++ htmlFooter now

/-- One styled element appended to the document body by the Print/Document
adapter.  The styling calls of src/backend.js are recorded by the
constructor: `heading1` = HEADING1 bold title, `heading2` = HEADING2 bold
with spacing 16/6, `numberItem` = list item with NUMBER glyph and font
size 11, `bulletItem` = list item with BULLET glyph and font size 11,
`par` = paragraph with font size 11, line spacing 1.4, spacing-after 8. -/
inductive DocElem where
  | heading1 (text : String)
  | heading2 (text : String)
  | numberItem (text : String)
  | bulletItem (text : String)
  | par (text : String)
  deriving DecidableEq

/-- One iteration of the `lines.forEach` body of `addStyledContent`
(src/backend.js lines 321-345).  Note the ordered-item branch appends the
whole trimmed `line`, numeric marker included (`body.appendListItem(line)`
at line 332), while the bullet branch strips the dash. -/
def docStep (acc : List DocElem) (rawLine : String) : List DocElem :=
  let line := jsTrim rawLine
  match classify line with
  | .blank => acc
  | .heading t => acc ++ [.heading2 t]
  | .listItem true _ => acc ++ [.numberItem line]
  | .listItem false t => acc ++ [.bulletItem t]
  | .paragraph t => acc ++ [.par t]

/-- `addStyledContent` (src/backend.js lines 318-346): the Print/Document
adapter body, as the sequence of styled elements it appends. -/
def addStyledContent (text : String) : List DocElem :=
  (jsSplitLines text).foldl docStep []

/-- The document body composed by `handlePDFOutput` (src/backend.js lines
136-154): HEADING1 title `agentName - extraContext`, two spacer
paragraphs `' '`, then the styled content. -/
def pdfDoc (agentName extraContext advisorText : String) : List DocElem :=
  [.heading1 (agentName ++ " - " ++ extraContext), .par " ", .par " "] ++
    addStyledContent advisorText

/-- A block of the structured document of spec §3/§4.2: heading, maximal
list (ordered or unordered) with its item texts, or paragraph. -/
inductive Block where
  | heading (text : String)
  | list (ordered : Bool) (items : List String)
  | par (text : String)
  deriving DecidableEq

/-- Modelled from the spec: the Structural Renderer state of §4.2, the
blocks emitted so far plus the current open list (kind and items), which
the source keeps only implicitly in `inList`/`listType` and the emitted
HTML. -/
structure RState where
  blocks : List Block
  openKind : Option Bool
  items : List String
  deriving DecidableEq

/-- Modelled from the spec: close any open list, appending it to the
document. -/
def rClose (st : RState) : RState :=
  match st.openKind with
  | none => st
  | some k => { blocks := st.blocks ++ [.list k st.items], openKind := none, items := [] }

/-- Modelled from the spec: one step of the Structural Renderer of §4.2 —
blank closes any open list; a heading or paragraph closes any open list
then appends its block; a list item merges into an open list of the same
kind and otherwise closes the open list and opens a new one. -/
def rStep (st : RState) (rawLine : String) : RState :=
  let line := jsTrim rawLine
  match classify line with
  | .blank => rClose st
  | .heading t =>
    let s := rClose st
    { s with blocks := s.blocks ++ [.heading t] }
  | .listItem k t =>
    if st.openKind = some k then { st with items := st.items ++ [t] }
    else
      let s := rClose st
      { s with openKind := some k, items := [t] }
  | .paragraph t =>
    let s := rClose st
    { s with blocks := s.blocks ++ [.par t] }

/-- Modelled from the spec: `render` of §4.2 — fold the renderer over the
lines and close any list still open after the last line. -/
def render (text : String) : List Block :=
  (rClose ((jsSplitLines text).foldl rStep
    { blocks := [], openKind := none, items := [] })).blocks

/-- Concatenation of a list of strings (explicit recursion, for easy
induction). -/
def strConcat : List String → String
  | [] => ""
  | s :: rest => s ++ strConcat rest

/-- The HTML emitted for one list item. -/
def liHtml (t : String) : String := "<li>" ++ escapeHtml t ++ "</li>\n"

/-- The HTML serialization of one block, exactly the tag shapes emitted by
`convertMarkdownToHTML`. -/
def htmlOfBlock : Block → String
  | .heading t => "<h2>" ++ escapeHtml t ++ "</h2>\n"
  | .list k items =>
    (if k then "<ol>\n" else "<ul>\n") ++ strConcat (items.map liHtml) ++
      (if k then "</ol>" else "</ul>")
  | .par t => "<p>" ++ escapeHtml t ++ "</p>\n"

/-- The HTML serialization of a block sequence. -/
def htmlOfBlocks (bs : List Block) : String := strConcat (bs.map htmlOfBlock)

/-- The JSON-shaped response object built by the handlers and by `doGet`
(src/backend.js): optional fields are `none` when the corresponding key is
absent from the returned object. -/
structure Response where
  status : String
  message : String
  outputFormat : Option String
  output : Option String
  extraContext : Option String
  deriving DecidableEq

/-- An observable call to one of the external services, recorded in order
of occurrence. -/
inductive Event where
  | sheetRead
  | providerCall (prompt : String)
  | docComposed (elems : List DocElem)
  | pdfEmailSent (recipient subject : String)
  | trashAttempt
  | trashed
  | warnLogged (msg : String)
  | htmlEmailSent (recipient subject body : String)
  deriving DecidableEq

/-- Outcomes of the three fallible external steps of the PDF path:
`getAs('application/pdf')` conversion, `MailApp.sendEmail`, and
`docFile.setTrashed(true)`. -/
structure PdfEnv where
  convertOk : Bool
  sendOk : Bool
  trashOk : Bool
  deriving DecidableEq

/-- `handlePDFOutput` (src/backend.js lines 134-188): compose the styled
document, convert it to PDF, email it as an attachment, then attempt
deletion of the transient doc inside its own `try`/`catch` whose failure
is only logged.  A thrown error is modelled as `Except.error` paired with
the events that happened before the throw; note that when conversion or
send throws, control never reaches the deletion attempt. -/
def handlePDFOutput (env : PdfEnv) (agentName advisorText extraContext : String) :
    Except String Response × List Event :=
  let evs0 := [Event.docComposed (pdfDoc agentName extraContext advisorText)]
  if env.convertOk = false then (Except.error "pdf conversion failed", evs0)
  else if env.sendOk = false then (Except.error "mail send failed", evs0)
  else
    let evs1 := evs0 ++
      [Event.pdfEmailSent "gauravtalele2025@gmail.com" (agentName ++ " - Output"),
       Event.trashAttempt] ++
      (if env.trashOk then [Event.trashed]
       else [Event.warnLogged "Could not delete temporary doc"])
    (Except.ok
      { status := "success",
        message := "PDF report sent for " ++ agentName,
        outputFormat := some "PDF", output := none,
        extraContext := some extraContext }, evs1)

/-- `handleHTMLOutput` (src/backend.js lines 190-202): pure — returns the
converted HTML with all newline characters removed. -/
def handleHTMLOutput (agentName advisorText extraContext now : String) : Response :=
  { status := "success",
    message := "HTML successfully generated for " ++ agentName,
    outputFormat := some "HTML",
    output := some (removeNewlines
      (convertMarkdownToHTML advisorText agentName extraContext now)),
    extraContext := some extraContext }

/-- `handleEmailOutput` (src/backend.js lines 207-225): send the converted
HTML as the body of an email to the fixed recipient. -/
def handleEmailOutput (sendOk : Bool) (agentName advisorText extraContext now : String) :
    Except String Response × List Event :=
  let body := convertMarkdownToHTML advisorText agentName extraContext now
  if sendOk = false then (Except.error "mail send failed", [])
  else
    (Except.ok
      { status := "success",
        message := "HTML email sent for " ++ agentName,
        outputFormat := some "EMAIL", output := none,
        extraContext := some extraContext },
     [Event.htmlEmailSent "gauravtalele2025@gmail.com" (agentName ++ " - Output") body])

/-- The external world of one request: the `GTAgents` sheet rows (header
row included, as `getValues()` returns them), whether the API key script
property is set, the completion provider outcome (the parsed
`choices[0].message.content`, or a thrown/parse error), the PDF path
outcomes, the email-send outcome and the current timestamp string. -/
structure Env where
  rows : List (String × String)
  apiKeyPresent : Bool
  providerResult : Except String String
  pdf : PdfEnv
  emailSendOk : Bool
  now : String

/-- `generateAndSendOutput` (src/backend.js lines 82-129): check the API
key, call the completion provider, then dispatch on the output format.
The `catch` at lines 125-128 only logs and rethrows, so errors pass
through unchanged. -/
def generateAndSendOutput (env : Env) (agentName fullPrompt outputFormat extraContext : String) :
    Except String Response × List Event :=
  if env.apiKeyPresent = false then
    (Except.error "Missing OPENROUTER_API_KEY in Script Properties", [])
  else
    match env.providerResult with
    | .error m => (Except.error m, [Event.providerCall fullPrompt])
    | .ok advisorText =>
      let step :=
        if outputFormat = "PDF" then
          handlePDFOutput env.pdf agentName advisorText extraContext
        else if outputFormat = "EMAIL" then
          handleEmailOutput env.emailSendOk agentName advisorText extraContext env.now
        else if outputFormat = "HTML" then
          (Except.ok (handleHTMLOutput agentName advisorText extraContext env.now), [])
        else (Except.error "Invalid output format", [])
      (step.1, Event.providerCall fullPrompt :: step.2)

/-- The lookup loop of `runAgent` (src/backend.js lines 61-67) over the
rows after the header: first row whose first cell, trimmed and
lower-cased, equals the lower-cased agent name. -/
def lookupLoop (key : String) : List (String × String) → Option String
  | [] => none
  | (n, p) :: rest => if jsToLower (jsTrim n) = key then some p else lookupLoop key rest

/-- `basePrompt` as found by `runAgent`: skip the header row, then run the
lookup loop. -/
def findBasePrompt (rows : List (String × String)) (agentName : String) : Option String :=
  lookupLoop (jsToLower agentName) (rows.drop 1)

/-- `runAgent` (src/backend.js lines 56-77): read the sheet, look up the
base prompt, throw `not found` when the lookup misses or yields a falsy
(empty) prompt, otherwise concatenate the prompt and context with a blank
line and continue. -/
def runAgent (env : Env) (agentName extraContext outputFormat : String) :
    Except String Response × List Event :=
  match findBasePrompt env.rows agentName with
  | none =>
    (Except.error ("Agent \"" ++ agentName ++ "\" not found in sheet"), [Event.sheetRead])
  | some p =>
    if p = "" then
      (Except.error ("Agent \"" ++ agentName ++ "\" not found in sheet"), [Event.sheetRead])
    else
      let step := generateAndSendOutput env agentName (p ++ "\n\n" ++ extraContext)
        outputFormat extraContext
      (step.1, Event.sheetRead :: step.2)

/-- A concrete external world used to exercise the dispatcher. -/
def sampleEnv : Env :=
  { rows := [("name", "prompt"), ("SA", "Advise on:")],
    apiKeyPresent := true,
    providerResult := Except.ok "Risks:\n- slip",
    pdf := { convertOk := true, sendOk := true, trashOk := true },
    emailSendOk := true,
    now := "1/1/2026" }

/-- The GET parameters of a request; `none` models an absent parameter. -/
structure Request where
  agentname : Option String
  context : Option String
  outputFormat : Option String
  deriving DecidableEq

/-- The `{status:'error', message}` JSON object. -/
def errorResponse (msg : String) : Response :=
  { status := "error", message := msg, outputFormat := none, output := none,
    extraContext := none }

/-- The tail of `doGet`: a thrown error is caught and serialized as an
error response (src/backend.js lines 46-50), a returned result is passed
through. -/
def respond : Except String Response × List Event → Response × List Event
  | (.ok r, evs) => (r, evs)
  | (.error m, evs) => (errorResponse m, evs)

/-- JavaScript truthiness of an optional string parameter: an absent
parameter (`undefined`) and the empty string are falsy. -/
def jsTruthy : Option String → Bool
  | none => false
  | some s => s ≠ ""

/-- `doGet` (src/backend.js lines 20-51): default `context` to `''` and
`outputFormat` to `'PDF'` (both via `||`), upper-case the format, reject a
falsy `agentname`, reject a format outside {PDF, EMAIL, HTML}, then run
the agent and serialize the outcome. -/
def doGet (env : Env) (e : Request) : Response × List Event :=
  let extraContext := e.context.getD ""
  let outputFormat :=
    jsToUpper (if jsTruthy e.outputFormat then e.outputFormat.getD "" else "PDF")
  if jsTruthy e.agentname = false then
    (errorResponse "Missing agentname parameter", [])
  else if (outputFormat = "PDF" || outputFormat = "EMAIL" || outputFormat = "HTML") = false then
    (errorResponse "Invalid outputFormat. Must be PDF, HTML, or EMAIL", [])
  else
    respond (runAgent env (e.agentname.getD "") extraContext outputFormat)

/-- The HTML the open list of a renderer state has already contributed:
its opening tag plus the items emitted so far. -/
def openHtml (st : RState) : String :=
  match st.openKind with
  | none => ""
  | some k => (if k then "<ol>\n" else "<ul>\n") ++ strConcat (st.items.map liHtml)

/-- The simulation relation between the raw string state of
`convertMarkdownToHTML` and the structured-renderer state: the
accumulated HTML is the header plus the serialization of the closed
blocks plus the open list's partial HTML, `inList` tracks whether a list
is open, and `listType` is the tag of the open list's kind. -/
abbrev MdRel (header : String) (m : MdState) (r : RState) : Prop :=
  m.html = header ++ htmlOfBlocks r.blocks ++ openHtml r ∧
  m.inList = r.openKind.isSome ∧
  ∀ k, r.openKind = some k → m.listType = (if k then "ol" else "ul")

/-- The format-neutral content skeleton of an adapter's output: the kind
and text of each rendered line, in order.  Two adapters agree on block
ordering and textual content exactly when their skeletons are equal. -/
inductive FlatItem where
  | heading (text : String)
  | orderedItem (text : String)
  | unorderedItem (text : String)
  | par (text : String)
  deriving DecidableEq

def flatOfBlock : Block → List FlatItem
  | .heading t => [.heading t]
  | .list true items => items.map FlatItem.orderedItem
  | .list false items => items.map FlatItem.unorderedItem
  | .par t => [.par t]

/-- The content skeleton of a structured document. -/
def flatOfBlocks (bs : List Block) : List FlatItem := bs.flatMap flatOfBlock

/-- The content skeleton of a Print/Document adapter element, with the
numeric marker the adapter kept on ordered items stripped off for
comparison against the other adapters. -/
def flatOfElem : DocElem → FlatItem
  | .heading1 t => .heading t
  | .heading2 t => .heading t
  | .numberItem t => .orderedItem (stripOrderedMarker t)
  | .bulletItem t => .unorderedItem t
  | .par t => .par t

/-- The content skeleton one input line contributes. -/
def flatLine (rawLine : String) : List FlatItem :=
  match classify (jsTrim rawLine) with
  | .blank => []
  | .heading t => [.heading t]
  | .listItem true t => [.orderedItem t]
  | .listItem false t => [.unorderedItem t]
  | .paragraph t => [.par t]

/-- The skeleton contributed by a renderer state's open list. -/
def openFlat (st : RState) : List FlatItem :=
  match st.openKind with
  | none => []
  | some true => st.items.map FlatItem.orderedItem
  | some false => st.items.map FlatItem.unorderedItem

/-- The per-character entity expansion the spec describes for the five
escaped characters; all other characters pass through unchanged. -/
def escChar (c : Char) : List Char :=
  if c = '&' then "&amp;".data
  else if c = '<' then "&lt;".data
  else if c = '>' then "&gt;".data
  else if c = '"' then "&quot;".data
  else if c = '\x27' then "&#039;".data
  else [c]

theorem replaceChar_append (c : Char) (sub a b : List Char) :
    replaceChar c sub (a ++ b) = replaceChar c sub a ++ replaceChar c sub b := by
  induction a with
  | nil => rfl
  | cons x rest ih => simp [replaceChar, ih, List.append_assoc]

theorem escList_append (a b : List Char) :
    escList (a ++ b) = escList a ++ escList b := by
  simp [escList, replaceChar_append]

theorem escList_single (x : Char) : escList [x] = escChar x := by
  by_cases h1 : x = '&'
  · subst h1; decide
  by_cases h2 : x = '<'
  · subst h2; decide
  by_cases h3 : x = '>'
  · subst h3; decide
  by_cases h4 : x = '"'
  · subst h4; decide
  by_cases h5 : x = '\x27'
  · subst h5; decide
  simp [escList, replaceChar, escChar, h1, h2, h3, h4, h5]

theorem escList_flat (l : List Char) : escList l = l.flatMap escChar := by
  induction l with
  | nil => rfl
  | cons x rest ih =>
    have hx : x :: rest = [x] ++ rest := rfl
    rw [hx, escList_append, escList_single, ih]
    simp

/-- `escapeHtml` is exactly the character-wise entity expansion. -/
theorem escapeHtml_data (s : String) :
    (escapeHtml s).data = s.data.flatMap escChar := by
  simp [escapeHtml, escList_flat]

theorem replaceChar_del (c : Char) (l : List Char) : c ∉ replaceChar c [] l := by
  induction l with
  | nil => simp [replaceChar]
  | cons x rest ih =>
    by_cases hx : x = c
    · simp [replaceChar, hx, ih]
    · simp [replaceChar, hx, ih]
      exact fun h => hx h.symm

/-- Stripping newlines leaves no newline behind. -/
theorem removeNewlines_data (s : String) : '\n' ∉ (removeNewlines s).data := by
  simpa [removeNewlines] using replaceChar_del '\n' s.data

theorem strConcat_append (a b : List String) :
    strConcat (a ++ b) = strConcat a ++ strConcat b := by
  induction a with
  | nil => simp [strConcat, String.empty_append]
  | cons x rest ih => simp [strConcat, ih, String.append_assoc]

theorem htmlOfBlocks_append (a b : List Block) :
    htmlOfBlocks (a ++ b) = htmlOfBlocks a ++ htmlOfBlocks b := by
  simp [htmlOfBlocks, strConcat_append]

theorem rClose_openKind (r : RState) : (rClose r).openKind = none := by
  cases hk : r.openKind <;> simp [rClose, hk]

theorem mdRel_close {h : String} {m : MdState} {r : RState} (hr : MdRel h m r) :
    MdRel h (mdClose m) (rClose r) := by
  obtain ⟨h1, h2, h3⟩ := hr
  cases hk : r.openKind with
  | none =>
    have hm : m.inList = false := by rw [h2, hk]; rfl
    have hc : rClose r = r := by simp [rClose, hk]
    have hmc : mdClose m = m := by simp [mdClose, hm]
    rw [hc, hmc]
    exact ⟨h1, h2, h3⟩
  | some k =>
    have hm : m.inList = true := by rw [h2, hk]; rfl
    have hl : m.listType = (if k then "ol" else "ul") := h3 k hk
    refine ⟨?_, by simp [mdClose, hm, rClose, hk], by simp [rClose, hk]⟩
    have hover : (rClose r).blocks = r.blocks ++ [Block.list k r.items] := by
      simp [rClose, hk]
    cases k with
    | true =>
      simp only [mdClose, hm, if_pos, hover, htmlOfBlocks_append, h1]
      simp [hl, openHtml, hk, htmlOfBlocks, htmlOfBlock, strConcat,
        String.append_assoc, String.append_empty, rClose]
    | false =>
      simp only [mdClose, hm, if_pos, hover, htmlOfBlocks_append, h1]
      simp [hl, openHtml, hk, htmlOfBlocks, htmlOfBlock, strConcat,
        String.append_assoc, String.append_empty, rClose]

theorem mdRel_step {h : String} {m : MdState} {r : RState} (line : String)
    (hr : MdRel h m r) : MdRel h (mdStep m line) (rStep r line) := by
  have hclose := mdRel_close hr
  obtain ⟨h1, h2, h3⟩ := hr
  obtain ⟨c1, c2, c3⟩ := hclose
  cases hcl : classify (jsTrim line) with
  | blank =>
    unfold mdStep rStep
    simp only [hcl]
    exact ⟨c1, c2, c3⟩
  | heading t =>
    unfold mdStep rStep
    simp only [hcl]
    refine ⟨?_, by simpa using c2, ?_⟩
    · simp only [c1, htmlOfBlocks_append]
      simp [openHtml, rClose_openKind, htmlOfBlocks, htmlOfBlock, strConcat,
        String.append_assoc, String.append_empty]
    · intro k hk
      simp only [rClose_openKind] at hk
      cases hk
  | paragraph t =>
    unfold mdStep rStep
    simp only [hcl]
    refine ⟨?_, by simpa using c2, ?_⟩
    · simp only [c1, htmlOfBlocks_append]
      simp [openHtml, rClose_openKind, htmlOfBlocks, htmlOfBlock, strConcat,
        String.append_assoc, String.append_empty]
    · intro k hk
      simp only [rClose_openKind] at hk
      cases hk
  | listItem k t =>
    by_cases hk : r.openKind = some k
    · -- merge into the open list: the code's guard is false
      have hm : m.inList = true := by rw [h2, hk]; rfl
      have hl : m.listType = (if k then "ol" else "ul") := h3 k hk
      cases k with
      | true =>
        have hlol : m.listType = "ol" := by simpa using hl
        unfold mdStep rStep
        simp only [hcl]
        rw [if_pos hk, if_neg (by simp [hm, hlol])]
        refine ⟨?_, by simp [hm, hk], ?_⟩
        · simp only [h1, openHtml, hk, String.append_assoc]
          simp [strConcat_append, strConcat, liHtml, String.append_assoc,
            String.append_empty]
        · intro k' hk'
          simp only at hk'
          rw [hk] at hk'
          cases hk'
          simpa using hl
      | false =>
        have hlul : m.listType = "ul" := by simpa using hl
        unfold mdStep rStep
        simp only [hcl]
        rw [if_pos hk, if_neg (by simp [hm, hlul])]
        refine ⟨?_, by simp [hm, hk], ?_⟩
        · simp only [h1, openHtml, hk, String.append_assoc]
          simp [strConcat_append, strConcat, liHtml, String.append_assoc,
            String.append_empty]
        · intro k' hk'
          simp only at hk'
          rw [hk] at hk'
          cases hk'
          simpa using hl
    · -- open a new list (closing any currently open one)
      have hguard : (m.inList = false) ∨ m.listType ≠ (if k then "ol" else "ul") := by
        cases hko : r.openKind with
        | none =>
          exact Or.inl (by rw [h2, hko]; rfl)
        | some k' =>
          have hne : k' ≠ k := by intro hkk; exact hk (by rw [hko, hkk])
          have hml : m.listType = (if k' then "ol" else "ul") := h3 k' hko
          refine Or.inr ?_
          cases k <;> cases k' <;> simp_all
      cases k with
      | true =>
        unfold mdStep rStep
        simp only [hcl]
        rw [if_neg hk, if_pos (by rcases hguard with hg | hg
                                  · simp [hg]
                                  · simp at hg; simp [hg])]
        refine ⟨?_, by simp, ?_⟩
        · simp only [c1, openHtml, rClose_openKind, String.append_assoc]
          simp [strConcat, liHtml, String.append_assoc, String.append_empty]
        · intro k' hk'
          simp only at hk'
          cases hk'
          rfl
      | false =>
        unfold mdStep rStep
        simp only [hcl]
        rw [if_neg hk, if_pos (by rcases hguard with hg | hg
                                  · simp [hg]
                                  · simp at hg; simp [hg])]
        refine ⟨?_, by simp, ?_⟩
        · simp only [c1, openHtml, rClose_openKind, String.append_assoc]
          simp [strConcat, liHtml, String.append_assoc, String.append_empty]
        · intro k' hk'
          simp only at hk'
          cases hk'
          rfl

theorem mdRel_foldl (h : String) (lines : List String) :
    ∀ (m : MdState) (r : RState), MdRel h m r →
      MdRel h (lines.foldl mdStep m) (lines.foldl rStep r) := by
  induction lines with
  | nil => intro m r hr; exact hr
  | cons l rest ih => intro m r hr; exact ih _ _ (mdRel_step l hr)

/-- The central refinement: `convertMarkdownToHTML` is the header, the
HTML serialization of the structured document produced by the spec's
renderer, and the footer. -/
theorem convert_eq_render (text agentName extraContext now : String) :
    convertMarkdownToHTML text agentName extraContext now =
      htmlHeader agentName extraContext ++
        (htmlOfBlocks (render text) ++ htmlFooter now) := by
  have hinit : MdRel (htmlHeader agentName extraContext)
      { html := htmlHeader agentName extraContext, inList := false, listType := "" }
      { blocks := [], openKind := none, items := [] } := by
    refine ⟨?_, rfl, by intro k hk; cases hk⟩
    simp [htmlOfBlocks, strConcat, openHtml, String.append_empty]
  have hfold := mdRel_foldl (htmlHeader agentName extraContext) (jsSplitLines text)
    _ _ hinit
  have hfin := mdRel_close hfold
  obtain ⟨f1, _, _⟩ := hfin
  unfold convertMarkdownToHTML render
  dsimp only
  rw [f1]
  have : openHtml (rClose ((jsSplitLines text).foldl rStep
      { blocks := [], openKind := none, items := [] })) = "" := by
    simp [openHtml, rClose_openKind]
  rw [this]
  simp [String.append_assoc, String.append_empty]

theorem flatOfBlocks_append (a b : List Block) :
    flatOfBlocks (a ++ b) = flatOfBlocks a ++ flatOfBlocks b := by
  simp [flatOfBlocks]

theorem rFlat_close (st : RState) :
    flatOfBlocks (rClose st).blocks ++ openFlat (rClose st) =
      flatOfBlocks st.blocks ++ openFlat st := by
  cases hk : st.openKind with
  | none => simp [rClose, hk]
  | some k =>
    cases k <;>
      simp [rClose, hk, openFlat, flatOfBlocks_append, flatOfBlocks, flatOfBlock]

theorem rFlat_step (st : RState) (line : String) :
    flatOfBlocks (rStep st line).blocks ++ openFlat (rStep st line) =
      (flatOfBlocks st.blocks ++ openFlat st) ++ flatLine line := by
  cases hcl : classify (jsTrim line) with
  | blank =>
    unfold rStep flatLine
    simp only [hcl]
    simp [rFlat_close]
  | heading t =>
    unfold rStep flatLine
    simp only [hcl]
    have := rFlat_close st
    simp only [openFlat, rClose_openKind] at this ⊢
    simp only [flatOfBlocks_append] at *
    simp_all [flatOfBlocks, flatOfBlock]
  | paragraph t =>
    unfold rStep flatLine
    simp only [hcl]
    have := rFlat_close st
    simp only [openFlat, rClose_openKind] at this ⊢
    simp only [flatOfBlocks_append] at *
    simp_all [flatOfBlocks, flatOfBlock]
  | listItem k t =>
    by_cases hk : st.openKind = some k
    · unfold rStep flatLine
      simp only [hcl]
      rw [if_pos hk]
      cases k <;> simp [openFlat, hk, List.append_assoc]
    · unfold rStep flatLine
      simp only [hcl]
      rw [if_neg hk]
      have := rFlat_close st
      cases k <;>
        · simp only [openFlat, rClose_openKind] at this ⊢
          simp_all [List.append_assoc]

theorem rFlat_foldl (lines : List String) :
    ∀ st : RState,
      flatOfBlocks ((lines.foldl rStep st).blocks) ++ openFlat (lines.foldl rStep st) =
        (flatOfBlocks st.blocks ++ openFlat st) ++ lines.flatMap flatLine := by
  induction lines with
  | nil => intro st; simp
  | cons l rest ih =>
    intro st
    simp only [List.foldl_cons, List.flatMap_cons]
    rw [ih (rStep st l), rFlat_step st l]
    simp [List.append_assoc]

/-- The content skeleton of the rendered document, line by line. -/
theorem render_flat (text : String) :
    flatOfBlocks (render text) = (jsSplitLines text).flatMap flatLine := by
  unfold render
  have h := rFlat_foldl (jsSplitLines text) { blocks := [], openKind := none, items := [] }
  have hc := rFlat_close ((jsSplitLines text).foldl rStep
    { blocks := [], openKind := none, items := [] })
  rw [h] at hc
  have : openFlat (rClose ((jsSplitLines text).foldl rStep
      { blocks := [], openKind := none, items := [] })) = [] := by
    simp [openFlat, rClose_openKind]
  rw [this, List.append_nil] at hc
  simpa [flatOfBlocks, openFlat] using hc

/-- Inverting `classify` on an ordered item: the payload is the line with
the numeric marker stripped. -/
theorem classify_ordered {line t : String}
    (h : classify line = .listItem true t) : t = stripOrderedMarker line := by
  unfold classify at h
  split_ifs at h <;> simp_all

theorem doc_flat_step (acc : List DocElem) (line : String) :
    (docStep acc line).map flatOfElem = acc.map flatOfElem ++ flatLine line := by
  cases hcl : classify (jsTrim line) with
  | blank => unfold docStep flatLine; simp only [hcl]; simp
  | heading t => unfold docStep flatLine; simp only [hcl]; simp [flatOfElem]
  | paragraph t => unfold docStep flatLine; simp only [hcl]; simp [flatOfElem]
  | listItem k t =>
    cases k with
    | true =>
      have hpay := classify_ordered hcl
      unfold docStep flatLine
      simp only [hcl]
      simp [flatOfElem, hpay]
    | false =>
      unfold docStep flatLine
      simp only [hcl]
      simp [flatOfElem]

theorem doc_flat_foldl (lines : List String) :
    ∀ acc : List DocElem,
      (lines.foldl docStep acc).map flatOfElem =
        acc.map flatOfElem ++ lines.flatMap flatLine := by
  induction lines with
  | nil => intro acc; simp
  | cons l rest ih =>
    intro acc
    simp only [List.foldl_cons, List.flatMap_cons]
    rw [ih (docStep acc l), doc_flat_step]
    simp [List.append_assoc]

/-- The content skeleton of the Print/Document adapter output, line by
line (after marker stripping on ordered items). -/
theorem addStyled_flat (text : String) :
    (addStyledContent text).map flatOfElem = (jsSplitLines text).flatMap flatLine := by
  unfold addStyledContent
  simpa using doc_flat_foldl (jsSplitLines text) []

theorem classify_of_trim_empty {l : String} (h : jsTrim l = "") :
    classify (jsTrim l) = .blank := by
  rw [h]; rfl

theorem rStep_blank {st : RState} {l : String} (h : jsTrim l = "") :
    rStep st l = rClose st := by
  unfold rStep
  simp only [classify_of_trim_empty h]

theorem foldl_rStep_blank (lines : List String)
    (h : ∀ l ∈ lines, jsTrim l = "") :
    lines.foldl rStep { blocks := [], openKind := none, items := [] } =
      { blocks := [], openKind := none, items := [] } := by
  induction lines with
  | nil => rfl
  | cons l rest ih =>
    simp only [List.foldl_cons]
    rw [rStep_blank (h l (by simp))]
    have : rClose { blocks := [], openKind := none, items := [] } =
        ({ blocks := [], openKind := none, items := [] } : RState) := rfl
    rw [this]
    exact ih (fun x hx => h x (by simp [hx]))

/-- Blank-only input renders to the empty block sequence. -/
theorem render_blankOnly (text : String)
    (h : ∀ l ∈ jsSplitLines text, jsTrim l = "") : render text = [] := by
  unfold render
  rw [foldl_rStep_blank (jsSplitLines text) h]
  rfl

theorem docStep_blank {acc : List DocElem} {l : String} (h : jsTrim l = "") :
    docStep acc l = acc := by
  unfold docStep
  simp only [classify_of_trim_empty h]

theorem foldl_docStep_blank (lines : List String)
    (h : ∀ l ∈ lines, jsTrim l = "") :
    ∀ acc : List DocElem, lines.foldl docStep acc = acc := by
  induction lines with
  | nil => intro acc; rfl
  | cons l rest ih =>
    intro acc
    simp only [List.foldl_cons]
    rw [docStep_blank (h l (by simp))]
    exact ih (fun x hx => h x (by simp [hx])) acc

/-- Blank-only input contributes nothing to the Print/Document adapter. -/
theorem addStyled_blankOnly (text : String)
    (h : ∀ l ∈ jsSplitLines text, jsTrim l = "") : addStyledContent text = [] := by
  unfold addStyledContent
  exact foldl_docStep_blank (jsSplitLines text) h []

/-- With a truthy agent name and a (case-insensitively) valid output
format, `doGet` passes validation and returns the serialized outcome of
`runAgent`. -/
theorem doGet_valid (env : Env) (a f : String) (c : Option String)
    (ha : a ≠ "") (hfne : f ≠ "")
    (hvalid : jsToUpper f = "PDF" ∨ jsToUpper f = "EMAIL" ∨ jsToUpper f = "HTML") :
    doGet env { agentname := some a, context := c, outputFormat := some f } =
      respond (runAgent env a (c.getD "") (jsToUpper f)) := by
  rcases hvalid with h | h | h <;> simp [doGet, jsTruthy, ha, hfne, h]

/-- C1 counterexample: on the single ordered-list line `"1. hello"` the
HTML adapter's list item carries the text after the numeric marker
(`hello`), while the Print/Document adapter's list item carries the whole
line, numeric marker included (`1. hello`); the texts differ, so the
three adapters do not agree on the textual content of this block. -/
theorem C1_counterexample :
    convertMarkdownToHTML "1. hello" "A" "B" "T" =
      htmlHeader "A" "B" ++ "<ol>\n<li>hello</li>\n</ol>" ++ htmlFooter "T" ∧
    addStyledContent "1. hello" = [DocElem.numberItem "1. hello"] ∧
    ("1. hello" : String) ≠ "hello" := by
  exact ⟨by decide, by decide, by decide⟩

/-- C1 amended: the HTML and Email adapters produce the identical string
(the email body is `convertMarkdownToHTML`'s output), and that string is
the serialization of the structured document, so these two agree on block
ordering and textual content; the Print/Document adapter agrees with them
on ordering and on the text of headings, paragraphs and unordered items,
but its ordered-list items carry the whole line including the numeric
marker — stripping that marker is exactly what reconciles its skeleton
with the structured document's. -/
theorem C1_adapters_agree_amended (text agentName extraContext now : String) :
    (handleEmailOutput true agentName text extraContext now).2 =
      [Event.htmlEmailSent "gauravtalele2025@gmail.com" (agentName ++ " - Output")
        (convertMarkdownToHTML text agentName extraContext now)] ∧
    convertMarkdownToHTML text agentName extraContext now =
      htmlHeader agentName extraContext ++
        (htmlOfBlocks (render text) ++ htmlFooter now) ∧
    flatOfBlocks (render text) = (addStyledContent text).map flatOfElem := by
  refine ⟨rfl, convert_eq_render text agentName extraContext now, ?_⟩
  rw [render_flat, addStyled_flat]

/-- C2: classification is total and exclusive (`classify` is a function
into `LineKind`, so every string gets exactly one kind); the empty string
is always `Blank`; and any non-empty trimmed line that ends with `:` is
always a `Heading`, even when it also matches a list pattern, because the
heading test precedes both list tests. -/
theorem C2_classification_total (line : String) :
    (∃! k : LineKind, classify line = k) ∧
    classify "" = LineKind.blank ∧
    (line ≠ "" → jsEndsWith line ':' = true → classify line = LineKind.heading line) := by
  refine ⟨⟨classify line, rfl, fun k hk => hk.symm⟩, rfl, ?_⟩
  intro h1 h2
  unfold classify
  rw [if_neg h1, if_pos h2]

/-- C2 witness: `"1.:"` matches the numbered-list pattern yet classifies
as a heading, and `"-x:"` matches the dash-list pattern yet classifies as
a heading. -/
theorem C2_witness :
    testOrderedMarker "1.:" = true ∧ classify "1.:" = LineKind.heading "1.:" ∧
    jsStartsWith "-x:" '-' = true ∧ classify "-x:" = LineKind.heading "-x:" :=
  ⟨by decide, (C2_classification_total "1.:").2.2 (by decide) (by decide),
   by decide, (C2_classification_total "-x:").2.2 (by decide) (by decide)⟩

/-- C3: the HTML the code emits is the serialization of the structured
document built by the spec's single-pass renderer `render`, whose step
relation merges consecutive list items of the same ordinal kind into the
open list block, closes the open list before appending anything on a
blank, heading, paragraph or other-kind list line, and closes and appends
a list still open after the last line; in particular `"1. a\n- b"` yields
two list blocks (ordered then unordered) and `"1. a\n2. b\n3. c"` yields
a single merged ordered block. -/
theorem C3_list_blocks_maximal (text agentName extraContext now : String) :
    convertMarkdownToHTML text agentName extraContext now =
      htmlHeader agentName extraContext ++
        (htmlOfBlocks (render text) ++ htmlFooter now) ∧
    render "1. a\n- b" = [Block.list true ["a"], Block.list false ["b"]] ∧
    render "1. a\n2. b\n3. c" = [Block.list true ["a", "b", "c"]] :=
  ⟨convert_eq_render text agentName extraContext now, by decide, by decide⟩

/-- C4: `escapeHtml` is exactly the character-wise expansion replacing
`&`, `<`, `>`, `"` and `'` by their HTML entities; every block text in
the HTML/Email output passes through `escapeHtml` (the output is the
serialization of the structured document, whose serializer escapes every
text); and the HTML-format response's `output` string contains no literal
newline character. -/
theorem C4_escaping_no_newline (s text agentName extraContext now : String) :
    (escapeHtml s).data = s.data.flatMap escChar ∧
    convertMarkdownToHTML text agentName extraContext now =
      htmlHeader agentName extraContext ++
        (htmlOfBlocks (render text) ++ htmlFooter now) ∧
    (∀ o : String, (handleHTMLOutput agentName text extraContext now).output = some o →
      '\n' ∉ o.data) := by
  refine ⟨escapeHtml_data s, convert_eq_render text agentName extraContext now, ?_⟩
  intro o ho
  have h : some (removeNewlines (convertMarkdownToHTML text agentName extraContext now)) =
      some o := ho
  cases h
  exact removeNewlines_data _

/-- C4 witness: the five special characters in a paragraph line are
escaped, and a concrete HTML response output contains no newline. -/
theorem C4_witness :
    (escapeHtml "<>&\"\x27").data = ("<>&\"\x27").data.flatMap escChar ∧
    '\n' ∉ (removeNewlines (convertMarkdownToHTML "a\nb" "A" "C" "T")).data :=
  ⟨(C4_escaping_no_newline "<>&\"\x27" "a\nb" "A" "C" "T").1,
   (C4_escaping_no_newline "<>&\"\x27" "a\nb" "A" "C" "T").2.2 _ rfl⟩

/-- C5 counterexample: when PDF conversion fails before the send, the
thrown error propagates and the deletion of the transient document is
never attempted — the code's `try`/`catch` wraps only `setTrashed`, after
the send, so the attempt is not guaranteed "regardless of whether
conversion/attachment succeeded". -/
theorem C5_counterexample :
    (handlePDFOutput { convertOk := false, sendOk := true, trashOk := true }
        "A" "text" "C").1 = Except.error "pdf conversion failed" ∧
    Event.trashAttempt ∉
      (handlePDFOutput { convertOk := false, sendOk := true, trashOk := true }
        "A" "text" "C").2 := by
  constructor
  · rfl
  · decide

/-- C5 amended: after a successful conversion, attachment and send, the
deletion of the transient document is attempted; a deletion failure is
logged and swallowed; and the request still returns the `success` result,
identical whether the deletion succeeded or failed.  (When conversion or
send fails the attempt is not made; see the counterexample.) -/
theorem C5_cleanup_amended (tok : Bool) (agentName advisorText extraContext : String) :
    (handlePDFOutput { convertOk := true, sendOk := true, trashOk := tok }
        agentName advisorText extraContext).1 =
      Except.ok
        { status := "success",
          message := "PDF report sent for " ++ agentName,
          outputFormat := some "PDF", output := none,
          extraContext := some extraContext } ∧
    Event.trashAttempt ∈
      (handlePDFOutput { convertOk := true, sendOk := true, trashOk := tok }
        agentName advisorText extraContext).2 ∧
    (tok = false →
      Event.warnLogged "Could not delete temporary doc" ∈
        (handlePDFOutput { convertOk := true, sendOk := true, trashOk := tok }
          agentName advisorText extraContext).2) ∧
    (handlePDFOutput { convertOk := true, sendOk := true, trashOk := false }
        agentName advisorText extraContext).1 =
      (handlePDFOutput { convertOk := true, sendOk := true, trashOk := true }
        agentName advisorText extraContext).1 := by
  cases tok <;> simp [handlePDFOutput]

/-- C5 witness: with deletion failing after a successful send, the
outcome is still the success response and the warning is logged. -/
theorem C5_witness :
    (handlePDFOutput { convertOk := true, sendOk := true, trashOk := false }
        "A" "text" "C").1 =
      Except.ok
        { status := "success", message := "PDF report sent for " ++ "A",
          outputFormat := some "PDF", output := none, extraContext := some "C" } ∧
    Event.warnLogged "Could not delete temporary doc" ∈
      (handlePDFOutput { convertOk := true, sendOk := true, trashOk := false }
        "A" "text" "C").2 :=
  ⟨(C5_cleanup_amended false "A" "text" "C").1,
   (C5_cleanup_amended false "A" "text" "C").2.2.1 rfl⟩

/-- C6: when no row of the template store matches the agent name
case-insensitively, the dispatcher fails with the "not found" error and
the completion provider is never called. -/
theorem C6_unknown_agent (env : Env) (a f : String) (c : Option String)
    (ha : a ≠ "") (hfne : f ≠ "")
    (hvalid : jsToUpper f = "PDF" ∨ jsToUpper f = "EMAIL" ∨ jsToUpper f = "HTML")
    (hmiss : findBasePrompt env.rows a = none) :
    doGet env { agentname := some a, context := c, outputFormat := some f } =
      (errorResponse ("Agent \"" ++ a ++ "\" not found in sheet"), [Event.sheetRead]) ∧
    ∀ p, Event.providerCall p ∉
      (doGet env { agentname := some a, context := c, outputFormat := some f }).2 := by
  have hd := doGet_valid env a f c ha hfne hvalid
  have hrun : runAgent env a (c.getD "") (jsToUpper f) =
      (Except.error ("Agent \"" ++ a ++ "\" not found in sheet"), [Event.sheetRead]) := by
    unfold runAgent
    rw [hmiss]
  rw [hd, hrun]
  exact ⟨rfl, by intro p; simp [respond]⟩

/-- C6 witness: agent `"XX"` is not in the sheet; the request errors with
the not-found message and no provider call happens. -/
theorem C6_witness :
    doGet sampleEnv { agentname := some "XX", context := none, outputFormat := some "html" } =
      (errorResponse ("Agent \"" ++ "XX" ++ "\" not found in sheet"), [Event.sheetRead]) ∧
    ∀ p, Event.providerCall p ∉
      (doGet sampleEnv { agentname := some "XX", context := none, outputFormat := some "html" }).2 :=
  C6_unknown_agent sampleEnv "XX" "html" none (by decide) (by decide)
    (by right; right; decide) (by decide)

/-- C7: validation in the `Idle` state — a missing or empty `agentname`
fails immediately with the missing-parameter error and no external call
of any kind; an `outputFormat` whose upper-casing is none of PDF, EMAIL,
HTML fails immediately with the invalid-format error and no external
call; an absent or empty `outputFormat` defaults to PDF; and any format
that is valid case-insensitively proceeds to `runAgent`. -/
theorem C7_validation (env : Env) (a f : String) (c g : Option String)
    (ha : a ≠ "")
    (hf : ¬(jsToUpper f = "PDF" ∨ jsToUpper f = "EMAIL" ∨ jsToUpper f = "HTML")) :
    doGet env { agentname := none, context := c, outputFormat := g } =
      (errorResponse "Missing agentname parameter", []) ∧
    doGet env { agentname := some "", context := c, outputFormat := g } =
      (errorResponse "Missing agentname parameter", []) ∧
    (f ≠ "" → doGet env { agentname := some a, context := c, outputFormat := some f } =
      (errorResponse "Invalid outputFormat. Must be PDF, HTML, or EMAIL", [])) ∧
    doGet env { agentname := some a, context := c, outputFormat := none } =
      respond (runAgent env a (c.getD "") "PDF") ∧
    doGet env { agentname := some a, context := c, outputFormat := some "" } =
      respond (runAgent env a (c.getD "") "PDF") ∧
    (∀ v : String, v ≠ "" →
      (jsToUpper v = "PDF" ∨ jsToUpper v = "EMAIL" ∨ jsToUpper v = "HTML") →
      doGet env { agentname := some a, context := c, outputFormat := some v } =
        respond (runAgent env a (c.getD "") (jsToUpper v))) := by
  have hup : jsToUpper "PDF" = "PDF" := by decide
  refine ⟨?_, ?_, ?_, ?_, ?_, ?_⟩
  · simp [doGet, jsTruthy]
  · simp [doGet, jsTruthy]
  · intro hfne
    have h1 : jsToUpper f ≠ "PDF" := fun h => hf (Or.inl h)
    have h2 : jsToUpper f ≠ "EMAIL" := fun h => hf (Or.inr (Or.inl h))
    have h3 : jsToUpper f ≠ "HTML" := fun h => hf (Or.inr (Or.inr h))
    simp [doGet, jsTruthy, ha, hfne, h1, h2, h3]
  · simp [doGet, jsTruthy, ha, hup]
  · simp [doGet, jsTruthy, ha, hup]
  · intro v hv hvalid
    exact doGet_valid env a v c ha hv hvalid

/-- C7 witness: `outputFormat=XML` is rejected with no events; a missing
agent name is rejected with no events; `outputformat` absent defaults to
PDF; and lower-case `html` is accepted. -/
theorem C7_witness :
    doGet sampleEnv { agentname := some "SA", context := none, outputFormat := some "XML" } =
      (errorResponse "Invalid outputFormat. Must be PDF, HTML, or EMAIL", []) ∧
    doGet sampleEnv { agentname := none, context := none, outputFormat := some "XML" } =
      (errorResponse "Missing agentname parameter", []) ∧
    doGet sampleEnv { agentname := some "SA", context := none, outputFormat := none } =
      respond (runAgent sampleEnv "SA" "" "PDF") ∧
    doGet sampleEnv { agentname := some "SA", context := none, outputFormat := some "html" } =
      respond (runAgent sampleEnv "SA" "" (jsToUpper "html")) := by
  have h := C7_validation sampleEnv "SA" "XML" none none (by decide)
    (by intro h; rcases h with h | h | h <;> exact absurd h (by decide))
  exact ⟨h.2.2.1 (by decide), h.1, h.2.2.2.1,
    h.2.2.2.2.2 "html" (by decide) (by right; right; decide)⟩

/-- C8: an input of blank lines only renders to the empty block sequence,
the HTML/Email adapter output is exactly the title header plus the
footer, the Print/Document adapter contributes no content elements (the
document is the title plus the two spacer paragraphs), and the HTML
handler still returns a success response. -/
theorem C8_blank_only (text agentName extraContext now : String)
    (h : ∀ l ∈ jsSplitLines text, jsTrim l = "") :
    render text = [] ∧
    convertMarkdownToHTML text agentName extraContext now =
      htmlHeader agentName extraContext ++ htmlFooter now ∧
    addStyledContent text = [] ∧
    pdfDoc agentName extraContext text =
      [DocElem.heading1 (agentName ++ " - " ++ extraContext),
       DocElem.par " ", DocElem.par " "] ∧
    (handleHTMLOutput agentName text extraContext now).status = "success" := by
  have hr := render_blankOnly text h
  have hd := addStyled_blankOnly text h
  refine ⟨hr, ?_, hd, ?_, rfl⟩
  · rw [convert_eq_render, hr]
    simp [htmlOfBlocks, strConcat, String.empty_append]
  · simp [pdfDoc, hd]

/-- C8 witness: the blank-only text `"\n \n\t"` produces the empty block
sequence and the bare shells. -/
theorem C8_witness :
    render "\n \n\t" = [] ∧
    convertMarkdownToHTML "\n \n\t" "A" "C" "T" = htmlHeader "A" "C" ++ htmlFooter "T" ∧
    addStyledContent "\n \n\t" = [] ∧
    pdfDoc "A" "C" "\n \n\t" =
      [DocElem.heading1 ("A" ++ " - " ++ "C"), DocElem.par " ", DocElem.par " "] ∧
    (handleHTMLOutput "A" "\n \n\t" "C" "T").status = "success" :=
  C8_blank_only "\n \n\t" "A" "C" "T" (by decide)

/-- C9: when the first row matching the agent name case-insensitively
carries an empty base prompt, the falsy check `if (!basePrompt)` fires
and the dispatcher fails with the same "not found" error, never calling
the completion provider. -/
theorem C9_empty_prompt (env : Env) (a f : String) (c : Option String)
    (ha : a ≠ "") (hfne : f ≠ "")
    (hvalid : jsToUpper f = "PDF" ∨ jsToUpper f = "EMAIL" ∨ jsToUpper f = "HTML")
    (hempty : findBasePrompt env.rows a = some "") :
    doGet env { agentname := some a, context := c, outputFormat := some f } =
      (errorResponse ("Agent \"" ++ a ++ "\" not found in sheet"), [Event.sheetRead]) ∧
    ∀ p, Event.providerCall p ∉
      (doGet env { agentname := some a, context := c, outputFormat := some f }).2 := by
  have hd := doGet_valid env a f c ha hfne hvalid
  have hrun : runAgent env a (c.getD "") (jsToUpper f) =
      (Except.error ("Agent \"" ++ a ++ "\" not found in sheet"), [Event.sheetRead]) := by
    unfold runAgent
    rw [hempty]
    rfl
  rw [hd, hrun]
  exact ⟨rfl, by intro p; simp [respond]⟩

/-- C9 witness: the sheet maps `sa` (matched case-insensitively by `SA`)
to the empty prompt; the request errors with the not-found message. -/
theorem C9_witness :
    doGet { sampleEnv with rows := [("name", "prompt"), ("sa", "")] }
        { agentname := some "SA", context := none, outputFormat := some "PDF" } =
      (errorResponse ("Agent \"" ++ "SA" ++ "\" not found in sheet"), [Event.sheetRead]) ∧
    ∀ p, Event.providerCall p ∉
      (doGet { sampleEnv with rows := [("name", "prompt"), ("sa", "")] }
        { agentname := some "SA", context := none, outputFormat := some "PDF" }).2 :=
  C9_empty_prompt { sampleEnv with rows := [("name", "prompt"), ("sa", "")] }
    "SA" "PDF" none (by decide) (by decide) (by left; decide) (by decide)

/-- C10: the title line of the HTML (and therefore Email) output is built
by interpolating `agentName` and `extraContext` verbatim, with no HTML
escaping: the output is exactly the raw header string around them, so any
special characters they contain appear literally inside the `h1`; the
email body is that same string. -/
theorem C10_title_verbatim (text agentName extraContext now : String) :
    convertMarkdownToHTML text agentName extraContext now =
      "\n<div class=\"agent-response\">\n    <h1>" ++ agentName ++ " - " ++
        extraContext ++ "</h1>\n" ++
        (htmlOfBlocks (render text) ++ htmlFooter now) ∧
    (handleEmailOutput true agentName text extraContext now).2 =
      [Event.htmlEmailSent "gauravtalele2025@gmail.com" (agentName ++ " - Output")
        (convertMarkdownToHTML text agentName extraContext now)] :=
  ⟨convert_eq_render text agentName extraContext now, rfl⟩

end Prompter






